import Mathlib

/-!
Verification development for the `linux-commander` file-manager
(`src/linux_commander/app.py`), shallow-embedded in Lean 4.

Modelling conventions:
* A canonical absolute path (the output of `os.path.realpath`) is represented
  both as its component list (`CPath`; `[]` is the filesystem root `/`) and as
  the rendered string the Python code actually manipulates (`render`).
* The host filesystem is a finite association list from canonical paths to
  entry kinds (regular file / directory).  The model is symlink-free, so
  `os.path.realpath` amounts to syntactic normalisation of the request string
  (`parsePath`): Python's default non-strict `realpath` never raises, even for
  paths that do not exist.
* Python string/list primitives used by the code (`str.startswith`,
  `str.split(maxsplit=...)`, `str.strip`, `str.isdigit`, list slicing with
  negative indices) are modelled character-for-character from their documented
  semantics, since the code's behaviour hinges on them.
* OS-level failures other than "entry absent" (permission errors, races) are
  outside the pure model; `zipfile.ZipFile.write` on a missing path surfaces
  as an `Except.error`, mirroring the uncaught `FileNotFoundError`.
-/

namespace LinuxCommander

/-- Kind of a filesystem entry: a regular file or a directory. -/
inductive Entry : Type
  | file : Entry
  | dir : Entry
deriving DecidableEq, Repr

/-- A canonical absolute path as its list of components; `[]` is `/`. -/
abbrev CPath := List String

/-- Join character-lists with a single separator character between them. -/
def joinSep (sep : Char) : List (List Char) → List Char
  | [] => []
  | [x] => x
  | x :: y :: ys => x ++ sep :: joinSep sep (y :: ys)

/-- The characters of the string `os.path.realpath` returns for a canonical
path: `/` for the root, otherwise `/`-separated components. -/
def renderChars : CPath → List Char
  | [] => ['/']
  | cs => '/' :: joinSep '/' (cs.map String.data)

/-- The canonical path as the string the Python code manipulates. -/
def render (p : CPath) : String := String.mk (renderChars p)

/-- Tokenizer for `parsePath`: splits on `/`, dropping empty components.
`acc` holds the (reversed) characters of the component being read. -/
def splitSlashGo : List Char → List Char → List String
  | acc, [] => if acc.isEmpty then [] else [String.mk acc.reverse]
  | acc, c :: cs =>
    if c = '/' then
      if acc.isEmpty then splitSlashGo [] cs
      else String.mk acc.reverse :: splitSlashGo [] cs
    else splitSlashGo (c :: acc) cs

/-- `os.path.realpath` on a symlink-free filesystem, as component list:
normalises an absolute request string by splitting on `/` and dropping empty
components.  Python's non-strict `realpath` is total — it never raises, even
when the path does not exist. -/
def parsePath (s : String) : CPath := splitSlashGo [] s.data

/-- Python's `str.startswith`: is `pre` a literal character prefix of `s`? -/
def pyStartswith (s pre : String) : Bool :=
  decide (s.data.take pre.data.length = pre.data)

/-- Separator-boundary descendant test (the check the spec demands):
`p` equals `d` or lies below `d` on a path-component boundary. -/
def isUnder (d p : CPath) : Bool := decide (p.take d.length = d)

/-- The modelled host filesystem: canonical paths with their entry kinds. -/
structure FS : Type where
  entries : List (CPath × Entry)
deriving DecidableEq, Repr

/-- Look up the entry kind recorded for a canonical path. -/
def FS.lookup (fs : FS) (p : CPath) : Option Entry :=
  ((fs.entries.find? fun e => decide (e.1 = p)).map fun e => e.2)

/-- `os.path.isfile` on the model. -/
def FS.isfile (fs : FS) (p : CPath) : Bool := decide (fs.lookup p = some Entry.file)

/-- `os.path.isdir` on the model. -/
def FS.isdir (fs : FS) (p : CPath) : Bool := decide (fs.lookup p = some Entry.dir)

/-- `os.remove`: drop the entry at `p`. -/
def FS.remove (fs : FS) (p : CPath) : FS :=
  ⟨fs.entries.filter fun e => !decide (e.1 = p)⟩

/-- The regular files in the recursive subtree strictly below directory `d`,
as enumerated by `os.walk` (enumeration order is modelled by entry order). -/
def FS.subtreeFiles (fs : FS) (d : CPath) : List CPath :=
  ((fs.entries.filter fun e =>
      decide (e.2 = Entry.file) && isUnder d e.1 && !decide (e.1 = d)).map
    fun e => e.1)

/-- The immediate children of directory `d`, sorted case-insensitively by
their rendered path (`sorted(os.listdir(d), key=str.lower)`). -/
def FS.children (fs : FS) (d : CPath) : List CPath :=
  (((fs.entries.filter fun e =>
      decide (e.1.length = d.length + 1) && isUnder d e.1).map
    fun e => e.1).mergeSort
    fun a b => decide ((render a).toLower ≤ (render b).toLower))

/-- `os.path.dirname` of a canonical path, as components. -/
def dirnameC (p : CPath) : CPath := p.dropLast

/-- `os.path.basename` of a canonical path: its last component
(empty for the root `/`). -/
def basenameC (p : CPath) : String := p.getLastD ""

/-- `os.path.relpath(render f, render base)` for a file `f` lying below the
directory `base` (the only way `zip_files` calls it). -/
def relpathFrom (base f : CPath) : String :=
  String.mk (joinSep '/' ((f.drop base.length).map String.data))

/-- `BASE_DIR = "/"` — the shipped configuration (app.py line 21). -/
def BASE_DIR : String := "/"

/-- `PER_PAGE = 50` (app.py line 22). -/
def PER_PAGE : Nat := 50

/-- The confinement test used verbatim by `explorer`, `file_lister_route`,
`delete_files` and `zip_files`:
`os.path.realpath(p).startswith(os.path.realpath(base))`. -/
def confineCheck (base p : String) : Bool :=
  pyStartswith (render (parsePath p)) (render (parsePath base))

/-! ## The `explorer` route (app.py lines 103-133) -/

/-- `safe_path` as computed by `explorer` / `file_lister_route` (lines
108-113, 141-143): the canonicalised request, silently replaced by the
canonicalised `BASE_DIR` when the `startswith` check fails. -/
def explorer_safe_path (base req : String) : String :=
  let safe := render (parsePath req)
  let root := render (parsePath base)
  if pyStartswith safe root then safe else root

/-- The `explorer` route body after `safe_path` is fixed (lines 115-133):
when `safe_path` is a directory, the sorted children are listed; otherwise a
`Path is not a directory` warning is flashed and the contents stay empty.
Returns `(is_directory, listed_children)`; per-child `get_file_info` stat
metadata (an external OS call) is elided, children that fail it are kept. -/
def explorer_view (base : String) (fs : FS) (req : String) : Bool × List CPath :=
  let root := parsePath base
  let s := parsePath req
  let safe := if pyStartswith (render s) (render root) then s else root
  if fs.isdir safe then (true, fs.children safe) else (false, [])

/-! ## Pagination (app.py lines 26-35 and 138-157) -/

/-- `Pagination.pages` (lines 33-35): `int(ceil(total_count /
float(per_page)))`, with the exact-real ceiling modelled exactly. -/
def pagination_pages (per_page total_count : Nat) : Nat :=
  (total_count + per_page - 1) / per_page

/-- Normalise one Python slice bound: negative indices count from the end,
and both directions clamp into `[0, len]`. -/
def pySliceIdx (len : Nat) (i : Int) : Nat :=
  if i < 0 then ((len : Int) + i).toNat else min i.toNat len

/-- Python list slicing `xs[start:stop]` (step 1). -/
def pySlice {α : Type} (xs : List α) (start stop : Int) : List α :=
  ((xs.take (pySliceIdx xs.length stop)).drop (pySliceIdx xs.length start))

/-- The slice taken by `file_lister_route` (lines 154-156):
`start = (page - 1) * PER_PAGE; end = start + PER_PAGE;
all_files[start:end]`.  `page` comes from `request.args.get('page', 1,
type=int)` and may be any integer. -/
def paginate_files {α : Type} (all_files : List α) (page : Int) : List α :=
  pySlice all_files ((page - 1) * (PER_PAGE : Int))
    ((page - 1) * (PER_PAGE : Int) + (PER_PAGE : Int))

/-! ## The `ls -l` output parser (app.py lines 64-87) -/

/-- Python `str.split(maxsplit=m)` with no separator argument: runs of
whitespace separate tokens, leading whitespace is dropped, and once `m`
splits have happened the rest of the string (leading whitespace stripped)
is the final element. -/
def pySplit (maxsplit : Nat) (s : List Char) : List String :=
  let s₁ := s.dropWhile Char.isWhitespace
  if s₁.isEmpty then []
  else
    match maxsplit with
    | 0 => [String.mk s₁]
    | m + 1 =>
      String.mk (s₁.takeWhile fun c => !c.isWhitespace) ::
        pySplit m (s₁.dropWhile fun c => !c.isWhitespace)

/-- Python `str.strip()`: drop whitespace from both ends. -/
def pyStrip (s : List Char) : List Char :=
  ((s.dropWhile Char.isWhitespace).reverse.dropWhile Char.isWhitespace).reverse

/-- Split on `'\n'`, keeping empty lines (Python `str.split('\n')`). -/
def splitNl : List Char → List Char → List String
  | acc, [] => [String.mk acc.reverse]
  | acc, c :: cs =>
    if c = '\n' then String.mk acc.reverse :: splitNl [] cs
    else splitNl (c :: acc) cs

/-- Python `str.isdigit()` restricted to ASCII: nonempty and all digits,
hence exactly the non-negative integer literals. -/
def pyIsDigit (s : String) : Bool := !s.data.isEmpty && s.data.all Char.isDigit

/-- Python `int` on a digit string. -/
def pyToNat (s : String) : Nat :=
  s.data.foldl (fun acc c => acc * 10 + (c.toNat - 48)) 0

/-- A parsed `ls -l` line (the dict built at lines 77-84).  `sizeBytes`
keeps the numeric value of field 5; the cosmetic `humanize.naturalsize`
rendering is an external library call and is not modelled. -/
structure LsRecord : Type where
  permissions : String
  owner : String
  group : String
  sizeBytes : Nat
  modified : String
  path : String
deriving DecidableEq, Repr

/-- One iteration of the `parse_ls_output` loop (lines 68-86): empty lines
are skipped, the line is split into at most 9 fields, lines with fewer than
9 fields or a non-digit field 5 are skipped, and otherwise the record is
built from fields 0/2/3/4, fields 5-6 joined by a space, and field 8. -/
def parse_ls_line (line : String) : Option LsRecord :=
  if line = "" then none
  else if (pySplit 8 line.data).length < 9 ||
      !pyIsDigit ((pySplit 8 line.data).getD 4 "") then none
  else
    some
      ⟨(pySplit 8 line.data).getD 0 "", (pySplit 8 line.data).getD 2 "",
        (pySplit 8 line.data).getD 3 "",
        pyToNat ((pySplit 8 line.data).getD 4 ""),
        String.mk (joinSep ' '
          ((((pySplit 8 line.data).drop 5).take 2).map String.data)),
        (pySplit 8 line.data).getD 8 ""⟩

/-- `parse_ls_output` (lines 64-87): strip the output, split into lines, and
collect the records of the lines that parse. -/
def parse_ls_output (output : String) : List LsRecord :=
  (splitNl [] (pyStrip output.data)).filterMap parse_ls_line

/-! ## The `delete_files` route (app.py lines 177-208) -/

/-- Outcome of one iteration of the deletion loop. -/
inductive DeleteOutcome : Type
  | deleted : DeleteOutcome
  | outsideBase : DeleteOutcome
  | notAFile : DeleteOutcome
deriving DecidableEq, Repr

/-- Did the item get deleted? -/
def DeleteOutcome.succeeded : DeleteOutcome → Bool
  | .deleted => true
  | _ => false

/-- Result of the deletion batch: the per-item outcomes in input order and
the `deleted_count` / `error_count` accumulators, plus the final filesystem. -/
structure DeleteResult : Type where
  outcomes : List DeleteOutcome
  deleted_count : Nat
  error_count : Nat
  fs : FS
deriving DecidableEq, Repr

/-- The loop of `delete_files` (lines 187-203): for each requested path,
canonicalise it, reject it when the `startswith` check fails
(`error_count += 1`), delete it when it is a regular file
(`deleted_count += 1`), and otherwise record a failure (`error_count += 1`).
OS errors beyond "entry absent" are outside the pure model. -/
def delete_files (base : String) (fs : FS) : List String → DeleteResult
  | [] => ⟨[], 0, 0, fs⟩
  | f_path :: rest =>
    let safe := parsePath f_path
    if !pyStartswith (render safe) (render (parsePath base)) then
      let r := delete_files base fs rest
      ⟨DeleteOutcome.outsideBase :: r.outcomes, r.deleted_count,
        r.error_count + 1, r.fs⟩
    else if fs.isfile safe then
      let r := delete_files base (fs.remove safe) rest
      ⟨DeleteOutcome.deleted :: r.outcomes, r.deleted_count + 1,
        r.error_count, r.fs⟩
    else
      let r := delete_files base fs rest
      ⟨DeleteOutcome.notAFile :: r.outcomes, r.deleted_count,
        r.error_count + 1, r.fs⟩

/-! ## The `zip_files` route (app.py lines 220-237) -/

/-- Archive entries contributed by one selected item (lines 226-235): items
failing the `startswith` check are skipped; a directory contributes every
file of its subtree under `os.path.relpath(file, dirname(item))`; any other
item is written under its base name — `zipfile.ZipFile.write` raises
`FileNotFoundError` when the path does not exist. -/
def zip_item (base : String) (fs : FS) (item_path : String) :
    Except String (List (CPath × String)) :=
  let safe := parsePath item_path
  if !pyStartswith (render safe) (render (parsePath base)) then Except.ok []
  else if fs.isdir safe then
    Except.ok
      ((fs.subtreeFiles safe).map fun f => (f, relpathFrom (dirnameC safe) f))
  else if fs.isfile safe then Except.ok [(safe, basenameC safe)]
  else Except.error "FileNotFoundError"

/-- All archive entries of the selection, in selection order; the first
exception aborts the whole request. -/
def zip_entries (base : String) (fs : FS) :
    List String → Except String (List (CPath × String))
  | [] => Except.ok []
  | p :: ps =>
    match zip_item base fs p with
    | Except.error m => Except.error m
    | Except.ok e =>
      match zip_entries base fs ps with
      | Except.error m => Except.error m
      | Except.ok rest => Except.ok (e ++ rest)

/-- The HTTP response of `POST /zip`. -/
inductive ZipResponse : Type
  | noItems : ZipResponse
  | archive : String → List (CPath × String) → ZipResponse
  | serverError : String → ZipResponse
deriving DecidableEq, Repr

/-- `zip_files` (lines 220-237): empty selection returns
`("No items selected", 400)`; otherwise the archive is assembled and served
as `archive.zip`, unless an exception escapes (an unhandled 500). -/
def zip_files (base : String) (fs : FS) (selected_items : List String) :
    ZipResponse :=
  if selected_items.isEmpty then ZipResponse.noItems
  else
    match zip_entries base fs selected_items with
    | Except.ok es => ZipResponse.archive "archive.zip" es
    | Except.error m => ZipResponse.serverError m

/-! ## Helper lemmas -/

/-- Every rendered canonical path begins with the character `/`. -/
lemma renderChars_head (p : CPath) : ∃ t, renderChars p = '/' :: t := by
  cases p with
  | nil => exact ⟨[], rfl⟩
  | cons c cs => exact ⟨_, rfl⟩

/-- Every canonical path passes the `startswith` test against the canonical
form of the shipped `BASE_DIR = "/"`. -/
lemma pyStartswith_root (p : CPath) :
    pyStartswith (render p) (render (parsePath BASE_DIR)) = true := by
  have hb : parsePath BASE_DIR = [] := rfl
  obtain ⟨t, ht⟩ := renderChars_head p
  rw [hb]
  unfold pyStartswith
  rw [decide_eq_true_eq]
  show (renderChars p).take 1 = ['/']
  rw [ht]
  rfl

/-- `find?` ignores filtering-out of entries whose key differs from the one
sought. -/
lemma find?_filter_ne (l : List (CPath × Entry)) (p q : CPath) (h : p ≠ q) :
    ((l.filter fun e => !decide (e.1 = p)).find? fun e => decide (e.1 = q)) =
      (l.find? fun e => decide (e.1 = q)) := by
  induction l with
  | nil => rfl
  | cons e t ih =>
    by_cases hp : e.1 = p
    · have hq : ¬(e.1 = q) := by rw [hp]; exact h
      simp [List.filter_cons, List.find?_cons, hp, hq, h, ih]
    · by_cases hq : e.1 = q
      · simp [List.filter_cons, List.find?_cons, hp, hq, Ne.symm h]
      · simp [List.filter_cons, List.find?_cons, hp, hq, ih]

/-- Removing one path leaves lookups at any other path unchanged. -/
lemma FS.lookup_remove_ne (fs : FS) (p q : CPath) (h : p ≠ q) :
    (fs.remove p).lookup q = fs.lookup q := by
  obtain ⟨l⟩ := fs
  simp only [FS.remove, FS.lookup]
  rw [find?_filter_ne l p q h]

/-- Removing a regular file never unregisters a directory. -/
lemma FS.isdir_remove (fs : FS) (p q : CPath) (hf : fs.isfile p = true)
    (hd : fs.isdir q = true) : (fs.remove p).isdir q = true := by
  have hpq : p ≠ q := by
    intro he
    rw [FS.isfile, decide_eq_true_eq] at hf
    rw [FS.isdir, decide_eq_true_eq] at hd
    rw [he, hd] at hf
    exact Entry.noConfusion (Option.some.inj hf)
  rw [FS.isdir, decide_eq_true_eq, FS.lookup_remove_ne fs p q hpq]
  rwa [FS.isdir, decide_eq_true_eq] at hd

/-- The deletion batch always runs to completion: one outcome per requested
path, in input order. -/
lemma delete_files_length (base : String) (fs : FS) (paths : List String) :
    (delete_files base fs paths).outcomes.length = paths.length := by
  induction paths generalizing fs with
  | nil => rfl
  | cons p ps ih =>
    simp only [delete_files]
    split
    · simpa using ih fs
    · split
      · simpa using ih (fs.remove (parsePath p))
      · simpa using ih fs

/-- The flashed `deleted_count` / `error_count` totals agree exactly with the
per-item outcomes. -/
lemma delete_files_counts (base : String) (fs : FS) (paths : List String) :
    (delete_files base fs paths).deleted_count =
        ((delete_files base fs paths).outcomes.countP fun o => o.succeeded) ∧
      (delete_files base fs paths).error_count =
        ((delete_files base fs paths).outcomes.countP fun o => !o.succeeded) := by
  induction paths generalizing fs with
  | nil => exact ⟨rfl, rfl⟩
  | cons p ps ih =>
    simp only [delete_files]
    split
    · simpa [List.countP_cons, DeleteOutcome.succeeded] using ih fs
    · split
      · simpa [List.countP_cons, DeleteOutcome.succeeded] using
          ih (fs.remove (parsePath p))
      · simpa [List.countP_cons, DeleteOutcome.succeeded] using ih fs

/-- No deletion batch ever removes a directory from the filesystem. -/
lemma delete_files_preserves_dir (base : String) (fs : FS)
    (paths : List String) (q : CPath) (hd : fs.isdir q = true) :
    (delete_files base fs paths).fs.isdir q = true := by
  induction paths generalizing fs with
  | nil => exact hd
  | cons p ps ih =>
    simp only [delete_files]
    split
    · exact ih fs hd
    · split
      · next hok hfile =>
        exact ih (fs.remove (parsePath p))
          (FS.isdir_remove fs (parsePath p) q hfile hd)
      · exact ih fs hd

/-- Python slicing at non-negative bounds is plain drop-then-take. -/
lemma pySlice_natCast {α : Type} (xs : List α) (a b : Nat) :
    pySlice xs (a : Int) (b : Int) = (xs.drop a).take (b - a) := by
  have ha : ¬((a : Int) < 0) := by omega
  have hb : ¬((b : Int) < 0) := by omega
  unfold pySlice pySliceIdx
  rw [if_neg ha, if_neg hb, Int.toNat_natCast, Int.toNat_natCast,
    List.drop_take]
  rcases le_or_lt a xs.length with h | h
  · rw [min_eq_left h]
    rcases le_or_lt b xs.length with h2 | h2
    · rw [min_eq_left h2]
    · rw [min_eq_right h2.le, List.take_of_length_le, List.take_of_length_le]
      · simp only [List.length_drop]
        omega
      · simp only [List.length_drop]
        omega
  · rw [min_eq_right h.le, List.drop_length,
      List.drop_eq_nil_of_le (le_of_lt h), List.take_nil, List.take_nil]

/-- For a positive page number `k`, the route serves exactly the records from
index `(k-1)*PER_PAGE` up to `k*PER_PAGE`. -/
lemma paginate_files_natCast {α : Type} (xs : List α) (k : Nat) (hk : 1 ≤ k) :
    paginate_files xs (k : Int) =
      (xs.drop ((k - 1) * PER_PAGE)).take PER_PAGE := by
  unfold paginate_files
  have h1 : ((k : Int) - 1) * (PER_PAGE : Int) =
      (((k - 1) * PER_PAGE : Nat) : Int) := by
    push_cast [Nat.cast_sub hk]
    ring
  have h2 : ((k : Int) - 1) * (PER_PAGE : Int) + (PER_PAGE : Int) =
      (((k - 1) * PER_PAGE + PER_PAGE : Nat) : Int) := by
    push_cast [Nat.cast_sub hk]
    ring
  rw [h2, h1, pySlice_natCast]
  congr 1
  omega

/-- Page number `0` slices `xs[-PER_PAGE:0]`, which is always empty. -/
lemma paginate_files_zero {α : Type} (xs : List α) :
    paginate_files xs 0 = [] := by
  unfold paginate_files pySlice
  have h0 : ((0 : Int) - 1) * (PER_PAGE : Int) + (PER_PAGE : Int) = 0 := by
    norm_num [PER_PAGE]
  rw [h0]
  have : pySliceIdx xs.length 0 = 0 := by
    unfold pySliceIdx
    norm_num
  rw [this, List.take_zero, List.drop_nil]

/-- Any page beyond the last one yields an empty slice. -/
lemma paginate_files_beyond {α : Type} (xs : List α) (page : Int)
    (h : (pagination_pages PER_PAGE xs.length : Int) < page) :
    paginate_files xs page = [] := by
  have hp1 : 1 ≤ page := by omega
  have hpk : page = (page.toNat : Int) := by omega
  rw [hpk, paginate_files_natCast xs page.toNat (by omega)]
  have hceil : xs.length ≤ pagination_pages PER_PAGE xs.length * PER_PAGE := by
    unfold pagination_pages PER_PAGE
    omega
  have hlt : pagination_pages PER_PAGE xs.length < page.toNat := by omega
  have hlen : xs.length ≤ (page.toNat - 1) * PER_PAGE :=
    le_trans hceil (Nat.mul_le_mul_right PER_PAGE (by omega))
  rw [List.drop_eq_nil_of_le hlen, List.take_nil]

/-- `filterMap` produces exactly one record per element the function keeps. -/
lemma length_filterMap_eq_countP {α β : Type} (f : α → Option β)
    (l : List α) :
    (l.filterMap f).length = l.countP fun a => (f a).isSome := by
  induction l with
  | nil => rfl
  | cons a t ih =>
    rw [List.filterMap_cons, List.countP_cons]
    cases h : f a with
    | none => simp [h, ih]
    | some b => simp [h, ih]

/-- `str.split(maxsplit=m)` returns at most `m + 1` fields. -/
lemma pySplit_length_le (m : Nat) (s : List Char) :
    (pySplit m s).length ≤ m + 1 := by
  induction m generalizing s with
  | zero =>
    simp only [pySplit]
    split
    · simp
    · simp
  | succ m ih =>
    simp only [pySplit]
    split
    · simp
    · simpa [Nat.succ_le_succ_iff] using ih _

/-- When the split is saturated (all `m + 1` fields present), the final field
is a literal remainder of the input line — in particular any spaces inside it
are preserved. -/
lemma pySplit_last_suffix (m : Nat) (s : List Char)
    (h : m + 1 ≤ (pySplit m s).length) :
    ((pySplit m s).getLastD "").data <:+ s := by
  induction m generalizing s with
  | zero =>
    by_cases he : (s.dropWhile Char.isWhitespace).isEmpty
    · simp [pySplit, he] at h
    · simp only [pySplit, he, if_neg, Bool.false_eq_true, not_false_iff,
        if_false]
      exact List.dropWhile_suffix _
  | succ m ih =>
    by_cases he : (s.dropWhile Char.isWhitespace).isEmpty
    · simp [pySplit, he] at h
    · simp only [pySplit, he, Bool.false_eq_true, not_false_iff, if_false,
        List.length_cons] at h ⊢
      have hr : m + 1 ≤ (pySplit m
          ((s.dropWhile Char.isWhitespace).dropWhile
            fun c => !c.isWhitespace)).length := by omega
      have hne : pySplit m ((s.dropWhile Char.isWhitespace).dropWhile
          fun c => !c.isWhitespace) ≠ [] := by
        intro h0
        rw [h0] at hr
        simp at hr
      rw [List.getLastD_cons]
      have hd : ∀ x : String, (pySplit m ((s.dropWhile Char.isWhitespace).dropWhile
          fun c => !c.isWhitespace)).getLastD x =
          (pySplit m ((s.dropWhile Char.isWhitespace).dropWhile
            fun c => !c.isWhitespace)).getLastD "" := by
        intro x
        cases hpm : pySplit m ((s.dropWhile Char.isWhitespace).dropWhile
            fun c => !c.isWhitespace) with
        | nil => exact absurd hpm hne
        | cons r t => rw [List.getLastD_cons, List.getLastD_cons]
      rw [hd]
      exact (ih _ hr).trans
        ((List.dropWhile_suffix _).trans (List.dropWhile_suffix _))

/-- Dropping all but the last element leaves exactly the last element. -/
lemma drop_length_sub_one {α : Type} (d : List α) (x : α) (hd : d ≠ []) :
    d.drop (d.length - 1) = [d.getLastD x] := by
  induction d generalizing x with
  | nil => exact absurd rfl hd
  | cons a t ih =>
    cases t with
    | nil => rfl
    | cons b u =>
      have h1 : (a :: b :: u).length - 1 = u.length + 1 := by simp
      rw [h1, List.getLastD_cons, List.drop_succ_cons]
      have h2 : u.length = (b :: u).length - 1 := by simp
      rw [h2, ih a (by simp)]

/-- If `d` is the `d.length`-element front of `f` and `f` is strictly
longer, then dropping one component fewer exposes `d`'s last component
followed by the remainder below `d`. -/
lemma drop_pred_of_take_eq {α : Type} (d f : List α) (x : α) (hd : d ≠ [])
    (ht : f.take d.length = d) :
    f.drop (d.length - 1) = d.getLastD x :: f.drop d.length := by
  conv_lhs => rw [← List.take_append_drop d.length f, ht]
  rw [List.drop_append_of_le_length (by omega), drop_length_sub_one d x hd]
  rfl

/-- Strings are their character lists. -/
lemma string_eta (s : String) : s = String.mk s.data := rfl

/-- The archive path `relpath(f, dirname(d))` used for files below a selected
directory `d` is `basename(d)/relpath(f, d)`: the selected directory's own
name is the top-level folder inside the archive. -/
lemma relpath_top_level (d f : CPath) (hd : d ≠ [])
    (ht : f.take d.length = d) (hlt : d.length < f.length) :
    relpathFrom (dirnameC d) f = basenameC d ++ "/" ++ relpathFrom d f := by
  unfold relpathFrom dirnameC basenameC
  rw [List.length_dropLast, drop_pred_of_take_eq d f "" hd ht]
  have hr : f.drop d.length ≠ [] := by
    intro h0
    have := congrArg List.length h0
    rw [List.length_drop] at this
    simp at this
    omega
  cases hrest : f.drop d.length with
  | nil => exact absurd hrest hr
  | cons r t =>
    show String.mk ((d.getLastD "").data ++ '/' ::
        joinSep '/' ((r :: t).map String.data)) = _
    rw [string_eta (d.getLastD "")]
    show String.mk ((d.getLastD "").data ++ '/' ::
        joinSep '/' ((r :: t).map String.data)) =
      String.mk (((d.getLastD "").data ++ ['/']) ++
        joinSep '/' ((r :: t).map String.data))
    rw [List.append_assoc]
    rfl

/-- Every path enumerated under a selected directory `d` has `d` as a strict
component-wise front. -/
lemma subtreeFiles_shape (fs : FS) (d f : CPath)
    (hf : f ∈ fs.subtreeFiles d) :
    f.take d.length = d ∧ d.length < f.length := by
  unfold FS.subtreeFiles at hf
  simp only [List.mem_map, List.mem_filter] at hf
  obtain ⟨e, ⟨-, hpred⟩, rfl⟩ := hf
  rw [Bool.and_eq_true, Bool.and_eq_true] at hpred
  obtain ⟨⟨-, hu⟩, hne⟩ := hpred
  rw [isUnder, decide_eq_true_eq] at hu
  rw [Bool.not_eq_true', decide_eq_false_iff_not] at hne
  refine ⟨hu, ?_⟩
  have hle : d.length ≤ e.1.length := by
    by_contra hlt
    push_neg at hlt
    rw [List.take_of_length_le (le_of_lt hlt)] at hu
    exact hne hu
  rcases lt_or_eq_of_le hle with h | h
  · exact h
  · exfalso
    rw [List.take_of_length_le (le_of_eq h.symm)] at hu
    exact hne hu

/-- When every confined non-directory selection exists as a regular file,
assembling the archive raises no exception. -/
lemma zip_entries_ok (base : String) (fs : FS) (items : List String)
    (h : ∀ item ∈ items, confineCheck base item = true →
      fs.isdir (parsePath item) = false →
      fs.isfile (parsePath item) = true) :
    ∃ es, zip_entries base fs items = Except.ok es := by
  induction items with
  | nil => exact ⟨[], rfl⟩
  | cons p ps ih =>
    obtain ⟨es, hes⟩ := ih fun i hi => h i (List.mem_cons_of_mem p hi)
    have hp := h p (List.mem_cons_self p ps)
    have hone : ∃ e, zip_item base fs p = Except.ok e := by
      by_cases hc :
          pyStartswith (render (parsePath p)) (render (parsePath base)) = true
      · by_cases hdir : fs.isdir (parsePath p) = true
        · exact ⟨(fs.subtreeFiles (parsePath p)).map fun f =>
              (f, relpathFrom (dirnameC (parsePath p)) f),
            by simp [zip_item, hc, hdir]⟩
        · have hfile : fs.isfile (parsePath p) = true :=
            hp (by rwa [confineCheck]) (Bool.eq_false_iff.mpr hdir)
          exact ⟨[(parsePath p, basenameC (parsePath p))],
            by simp [zip_item, hc, hdir, hfile]⟩
      · exact ⟨[], by simp [zip_item, hc]⟩
    obtain ⟨e, he⟩ := hone
    exact ⟨e ++ es, by simp [zip_entries, he, hes]⟩

/-- Indexing a list at its final position is `getLastD`. -/
lemma getD_length_pred {α : Type} (l : List α) (d : α) (h : l ≠ []) :
    l.getD (l.length - 1) d = l.getLastD d := by
  induction l generalizing d with
  | nil => exact absurd rfl h
  | cons a t ih =>
    cases t with
    | nil => rfl
    | cons b u =>
      have h1 : (a :: b :: u).length - 1 = (b :: u).length - 1 + 1 := by simp
      rw [h1]
      show (b :: u).getD ((b :: u).length - 1) d = _
      rw [ih d (by simp), List.getLastD_cons]
      rw [List.getLastD_cons, List.getLastD_cons]

/-! ## Concrete filesystems used as witnesses and counterexamples -/

/-- Host with `/data` configured as root and `/data-evil/x` a real file. -/
def fsBoundary : FS :=
  ⟨[(["data"], Entry.dir), (["data-evil"], Entry.dir),
    (["data-evil", "x"], Entry.file)]⟩

/-- Host with only the file `/database/creds`, outside a `/data` root. -/
def fsOutside : FS := ⟨[(["database", "creds"], Entry.file)]⟩

/-- A host with no entries at all. -/
def fsEmpty : FS := ⟨[]⟩

/-- Host holding `/confined/dir/a/b.txt` and `/confined/f.txt`. -/
def fsArch : FS :=
  ⟨[(["confined"], Entry.dir), (["confined", "dir"], Entry.dir),
    (["confined", "dir", "a"], Entry.dir),
    (["confined", "dir", "a", "b.txt"], Entry.file),
    (["confined", "f.txt"], Entry.file)]⟩

/-- Host holding a regular file `/a.txt` and a directory `/d`. -/
def fsDel : FS := ⟨[(["a.txt"], Entry.file), (["d"], Entry.dir)]⟩

/-- Host holding the directory `/etc` and the file `/etc/passwd`. -/
def fsEtc : FS := ⟨[(["etc"], Entry.dir), (["etc", "passwd"], Entry.file)]⟩

/-! ## Claim theorems -/

/-- C1: the claim says the confinement check rejects a request whose
canonical form has the canonical root as a textual prefix that is not
anchored at a path separator.  The code's bare `startswith` check does the
opposite: with root `/data`, the request `/data-evil/x` — which is *not*
under `/data` on a component boundary — passes the check, the delete
operation removes the file, and the zip operation writes it into the
archive.  (The spec itself flags the missing boundary anchoring as a defect
of the reference implementation.) -/
theorem c1_boundary_prefix_accepted :
    confineCheck "/data" "/data-evil/x" = true
    ∧ isUnder (parsePath "/data") (parsePath "/data-evil/x") = false
    ∧ (delete_files "/data" fsBoundary ["/data-evil/x"]).outcomes =
        [DeleteOutcome.deleted]
    ∧ (delete_files "/data" fsBoundary ["/data-evil/x"]).fs.lookup
        (parsePath "/data-evil/x") = none
    ∧ zip_item "/data" fsBoundary "/data-evil/x" =
        Except.ok [(["data-evil", "x"], "x")] := by
  refine ⟨by decide, by decide, by decide, by decide, by rfl⟩

/-- C2: the claim says a path whose canonical form lies outside the
confinement root is never removed by the delete operation and never written
into the archive.  Because the `startswith` check is not anchored at a
separator boundary, the canonical path `/database/creds` — outside the root
`/data` — is accepted: the delete operation removes it and the zip
operation writes it into the archive. -/
theorem c2_outside_path_deleted_and_archived :
    isUnder (parsePath "/data") (parsePath "/database/creds") = false
    ∧ (delete_files "/data" fsOutside ["/database/creds"]).outcomes =
        [DeleteOutcome.deleted]
    ∧ (delete_files "/data" fsOutside ["/database/creds"]).fs = ⟨[]⟩
    ∧ zip_item "/data" fsOutside "/database/creds" =
        Except.ok [(["database", "creds"], "creds")] := by
  refine ⟨by decide, by decide, by decide, by rfl⟩

/-- C3 counterexample: `os.path.realpath` is non-strict, so canonicalising
the non-existent `/no/such/file` does not fail; the path passes the
confinement check (it is speculatively confined) and is handed on to the
deletion loop (which records a per-item failure) and to the archive loop
(where `zipfile.ZipFile.write` raises, aborting the request) — there is no
`ResolutionError` rejection at confinement time. -/
theorem c3_nonexistent_confined_counterexample :
    confineCheck BASE_DIR "/no/such/file" = true
    ∧ (delete_files BASE_DIR fsEmpty ["/no/such/file"]).outcomes =
        [DeleteOutcome.notAFile]
    ∧ zip_files BASE_DIR fsEmpty ["/no/such/file"] =
        ZipResponse.serverError "FileNotFoundError" := by
  refine ⟨by decide, by decide, by decide⟩

/-- C3 (amended): canonicalisation of a non-existent path never fails — the
path is speculatively confined and handed on, and rejection happens
downstream: browsing flashes a not-a-directory warning and lists nothing,
deletion records a per-item failure and removes nothing, and archiving
raises an unhandled `FileNotFoundError`; a non-existent path failing the
prefix check is likewise recorded as a per-item deletion failure. -/
theorem c3_nonexistent_handled_downstream (base p : String) (fs : FS)
    (habs : fs.lookup (parsePath p) = none) :
    (confineCheck base p = true →
      delete_files base fs [p] = ⟨[DeleteOutcome.notAFile], 0, 1, fs⟩
      ∧ zip_files base fs [p] = ZipResponse.serverError "FileNotFoundError"
      ∧ explorer_view base fs p = (false, []))
    ∧ (confineCheck base p = false →
      delete_files base fs [p] = ⟨[DeleteOutcome.outsideBase], 0, 1, fs⟩) := by
  have hfile : fs.isfile (parsePath p) = false := by
    simp [FS.isfile, habs]
  have hdir : fs.isdir (parsePath p) = false := by
    simp [FS.isdir, habs]
  constructor
  · intro hc
    rw [confineCheck] at hc
    refine ⟨?_, ?_, ?_⟩
    · simp [delete_files, hc, hfile]
    · simp [zip_files, zip_entries, zip_item, hc, hdir, hfile]
    · simp [explorer_view, hc, hdir]
  · intro hc
    rw [confineCheck] at hc
    simp [delete_files, hc]

/-- C3 witness: the amended statement at the concrete missing path
`/ghost.txt` on an empty host. -/
theorem c3_nonexistent_handled_downstream_witness :
    delete_files BASE_DIR fsEmpty ["/ghost.txt"] =
        ⟨[DeleteOutcome.notAFile], 0, 1, fsEmpty⟩
    ∧ zip_files BASE_DIR fsEmpty ["/ghost.txt"] =
        ZipResponse.serverError "FileNotFoundError" := by
  have h := (c3_nonexistent_handled_downstream BASE_DIR "/ghost.txt" fsEmpty
    (by decide)).1 (by decide)
  exact ⟨h.1, h.2.1⟩

/-- C4: the listing-line parser is total (it is a Lean function, so it never
raises); a line is split into at most 9 whitespace fields; a line with fewer
than 9 fields, or whose field 5 is not a run of digits, is skipped; a
well-formed line yields exactly one record — permissions/owner/group from
fields 1/3/4, the size from field 5, the modified stamp from fields 6-7,
and the path from field 9 — and that final field is a literal remainder of
the line, so filenames containing spaces survive. -/
theorem c4_ls_parser_spec (output line : String) :
    (pySplit 8 line.data).length ≤ 9
    ∧ (parse_ls_output output).length =
        ((splitNl [] (pyStrip output.data)).countP fun l =>
          (parse_ls_line l).isSome)
    ∧ ((pySplit 8 line.data).length < 9 ∨
          pyIsDigit ((pySplit 8 line.data).getD 4 "") = false →
        parse_ls_line line = none)
    ∧ (9 ≤ (pySplit 8 line.data).length →
        pyIsDigit ((pySplit 8 line.data).getD 4 "") = true →
        parse_ls_line line = some
          ⟨(pySplit 8 line.data).getD 0 "", (pySplit 8 line.data).getD 2 "",
            (pySplit 8 line.data).getD 3 "",
            pyToNat ((pySplit 8 line.data).getD 4 ""),
            String.mk (joinSep ' '
              ((((pySplit 8 line.data).drop 5).take 2).map String.data)),
            (pySplit 8 line.data).getD 8 ""⟩)
    ∧ (9 ≤ (pySplit 8 line.data).length →
        (pySplit 8 line.data).getD 8 "" =
          (pySplit 8 line.data).getLastD ""
        ∧ ((pySplit 8 line.data).getLastD "").data <:+ line.data) := by
  refine ⟨pySplit_length_le 8 line.data, ?_, ?_, ?_, ?_⟩
  · exact length_filterMap_eq_countP parse_ls_line _
  · intro hcond
    by_cases hl : line = ""
    · simp [parse_ls_line, hl]
    · have hc : ((pySplit 8 line.data).length < 9 ||
          !pyIsDigit ((pySplit 8 line.data).getD 4 "")) = true := by
        rcases hcond with h | h
        · simp [h]
        · rw [List.getD_eq_getElem?_getD] at h
          simp [h]
      unfold parse_ls_line
      rw [if_neg hl, if_pos hc]
  · intro h1 h2
    have hl : line ≠ "" := by
      intro h0
      rw [h0] at h1
      exact absurd h1 (by decide)
    have hc : ((pySplit 8 line.data).length < 9 ||
        !pyIsDigit ((pySplit 8 line.data).getD 4 "")) = false := by
      have h2x := h2
      rw [List.getD_eq_getElem?_getD] at h2x
      simp [Nat.not_lt.mpr h1, h2x]
    unfold parse_ls_line
    rw [if_neg hl, if_neg (by rw [hc]; decide)]
  · intro h
    have hne : pySplit 8 line.data ≠ [] := by
      intro h0
      rw [h0] at h
      exact absurd h (by decide)
    have hlen : (pySplit 8 line.data).length = 9 :=
      le_antisymm (pySplit_length_le 8 line.data) h
    constructor
    · have hx := getD_length_pred (pySplit 8 line.data) "" hne
      rw [hlen] at hx
      simpa using hx
    · exact pySplit_last_suffix 8 line.data h

/-- C4 witness: a 9-field line whose filename contains a space parses to the
expected record; a short line is skipped. -/
theorem c4_ls_parser_spec_witness :
    parse_ls_line
        "-rw-r--r-- 1 root root 2048 2024-05-01 10:20:30.000000000 +0000 /tmp/my file.txt" =
      some ⟨"-rw-r--r--", "root", "root", 2048,
        "2024-05-01 10:20:30.000000000", "/tmp/my file.txt"⟩
    ∧ parse_ls_line "total 12" = none := by
  constructor
  · exact ((c4_ls_parser_spec ""
      "-rw-r--r-- 1 root root 2048 2024-05-01 10:20:30.000000000 +0000 /tmp/my file.txt").2.2.2.1
      (by decide) (by decide)).trans (by decide)
  · exact (c4_ls_parser_spec "" "total 12").2.2.1 (Or.inl (by decide))

/-- C5: a selected confined directory `d` contributes every regular file `f`
of its recursive subtree under the archive entry path
`relpath(f, dirname(d))`, and that path equals `basename(d)/relpath(f, d)` —
the selected directory's own name is the top-level folder inside the
archive; a selected confined regular file is written under its base name
only, with no path prefix. -/
theorem c5_archive_entry_paths (base item : String) (fs : FS) :
    (confineCheck base item = true → fs.isdir (parsePath item) = true →
      zip_item base fs item = Except.ok
        ((fs.subtreeFiles (parsePath item)).map fun f =>
          (f, relpathFrom (dirnameC (parsePath item)) f)))
    ∧ (confineCheck base item = true → fs.isdir (parsePath item) = false →
      fs.isfile (parsePath item) = true →
      zip_item base fs item = Except.ok
        [(parsePath item, basenameC (parsePath item))])
    ∧ (parsePath item ≠ [] →
      ∀ f ∈ fs.subtreeFiles (parsePath item),
        relpathFrom (dirnameC (parsePath item)) f =
          basenameC (parsePath item) ++ "/" ++ relpathFrom (parsePath item) f) := by
  refine ⟨?_, ?_, ?_⟩
  · intro hc hdir
    rw [confineCheck] at hc
    simp [zip_item, hc, hdir]
  · intro hc hdir hfile
    rw [confineCheck] at hc
    simp [zip_item, hc, hdir, hfile]
  · intro hne f hf
    obtain ⟨ht, hlt⟩ := subtreeFiles_shape fs (parsePath item) f hf
    exact relpath_top_level _ f hne ht hlt

/-- C5 witness: selecting `/confined/dir` containing `a/b.txt` produces the
entry `dir/a/b.txt`; selecting `/confined/f.txt` produces the entry
`f.txt`. -/
theorem c5_archive_entry_paths_witness :
    zip_item "/" fsArch "/confined/dir" =
        Except.ok [(["confined", "dir", "a", "b.txt"], "dir/a/b.txt")]
    ∧ zip_item "/" fsArch "/confined/f.txt" =
        Except.ok [(["confined", "f.txt"], "f.txt")] := by
  constructor
  · exact ((c5_archive_entry_paths "/" "/confined/dir" fsArch).1
      (by decide) (by decide)).trans (by rfl)
  · exact ((c5_archive_entry_paths "/" "/confined/f.txt" fsArch).2.1
      (by decide) (by decide) (by decide)).trans (by rfl)

/-- C6: the deletion batch runs to completion with one outcome per path in
input order; the flashed success/failure counts equal the per-item outcome
tallies; directories are never removed; and each step behaves as claimed —
a confined regular file is removed with a success outcome, a confined
non-file (missing path or directory) yields a failure outcome with the
filesystem untouched, and an unconfined path yields a failure outcome. -/
theorem c6_delete_batch (base p : String) (ps paths : List String)
    (fs : FS) (q : CPath) :
    (delete_files base fs paths).outcomes.length = paths.length
    ∧ (delete_files base fs paths).deleted_count =
        ((delete_files base fs paths).outcomes.countP fun o => o.succeeded)
    ∧ (delete_files base fs paths).error_count =
        ((delete_files base fs paths).outcomes.countP fun o => !o.succeeded)
    ∧ (fs.isdir q = true → (delete_files base fs paths).fs.isdir q = true)
    ∧ (confineCheck base p = true → fs.isfile (parsePath p) = true →
        delete_files base fs (p :: ps) =
          ⟨DeleteOutcome.deleted ::
              (delete_files base (fs.remove (parsePath p)) ps).outcomes,
            (delete_files base (fs.remove (parsePath p)) ps).deleted_count + 1,
            (delete_files base (fs.remove (parsePath p)) ps).error_count,
            (delete_files base (fs.remove (parsePath p)) ps).fs⟩)
    ∧ (confineCheck base p = true → fs.isfile (parsePath p) = false →
        delete_files base fs (p :: ps) =
          ⟨DeleteOutcome.notAFile :: (delete_files base fs ps).outcomes,
            (delete_files base fs ps).deleted_count,
            (delete_files base fs ps).error_count + 1,
            (delete_files base fs ps).fs⟩)
    ∧ (confineCheck base p = false →
        delete_files base fs (p :: ps) =
          ⟨DeleteOutcome.outsideBase :: (delete_files base fs ps).outcomes,
            (delete_files base fs ps).deleted_count,
            (delete_files base fs ps).error_count + 1,
            (delete_files base fs ps).fs⟩) := by
  refine ⟨delete_files_length base fs paths,
    (delete_files_counts base fs paths).1,
    (delete_files_counts base fs paths).2,
    delete_files_preserves_dir base fs paths q, ?_, ?_, ?_⟩
  · intro hc hfile
    rw [confineCheck] at hc
    simp [delete_files, hc, hfile]
  · intro hc hfile
    rw [confineCheck] at hc
    simp [delete_files, hc, hfile]
  · intro hc
    rw [confineCheck] at hc
    simp [delete_files, hc]

/-- C6 witness: the spec's example batch `[validFile, missingFile,
directoryPath]` on a host holding the file `/a.txt` and the directory `/d`:
three ordered outcomes, one success and two failures, and the directory
survives. -/
theorem c6_delete_batch_witness :
    (delete_files "/" fsDel ["/a.txt", "/missing", "/d"]).outcomes.length = 3
    ∧ (delete_files "/" fsDel ["/a.txt", "/missing", "/d"]).fs.isdir ["d"] =
        true
    ∧ delete_files "/" fsDel ["/a.txt"] =
        ⟨[DeleteOutcome.deleted], 1, 0, fsDel.remove ["a.txt"]⟩ := by
  refine ⟨?_, ?_, ?_⟩
  · exact (c6_delete_batch "/" "/a.txt" [] ["/a.txt", "/missing", "/d"]
      fsDel []).1
  · exact (c6_delete_batch "/" "/a.txt" [] ["/a.txt", "/missing", "/d"]
      fsDel ["d"]).2.2.2.1 (by decide)
  · exact (c6_delete_batch "/" "/a.txt" [] [] fsDel []).2.2.2.2.1
      (by decide) (by decide)

set_option maxRecDepth 8000 in
/-- C7 counterexample: the claim says any out-of-range page yields an empty
item sequence, and never items from elsewhere in the sequence.  Page `-1`
of a 125-record listing is out of range (below 1), yet Python's
end-relative slice indices make the route return records 26-75. -/
theorem c7_negative_page_counterexample :
    ((-1 : Int) < 1)
    ∧ paginate_files (List.range 125) (-1) =
        ((List.range 125).drop 25).take 50
    ∧ paginate_files (List.range 125) (-1) ≠ [] := by
  refine ⟨by decide, by decide, by decide⟩

/-- C7 (amended): no upper clamp is needed — any page beyond the last yields
an empty item sequence, never an error (the slice is total), and page 0 also
yields an empty sequence; but `pageNumber` is *not* clamped to 1: a negative
page is interpreted with Python's end-relative slice indices and can return
items from elsewhere in the sequence. -/
theorem c7_out_of_range_pages (α : Type) (all_files : List α) (page : Int) :
    ((pagination_pages PER_PAGE all_files.length : Int) < page →
      paginate_files all_files page = [])
    ∧ (page = 0 → paginate_files all_files page = []) := by
  constructor
  · exact paginate_files_beyond all_files page
  · intro h
    rw [h]
    exact paginate_files_zero all_files

/-- C7 witness: the amended statement at a 3-record listing — page 2 (beyond
the single page) and page 0 are both empty. -/
theorem c7_out_of_range_pages_witness :
    paginate_files ([0, 1, 2] : List Nat) 2 = []
    ∧ paginate_files ([0, 1, 2] : List Nat) 0 = [] :=
  ⟨(c7_out_of_range_pages Nat [0, 1, 2] 2).1 (by decide),
    (c7_out_of_range_pages Nat [0, 1, 2] 0).2 rfl⟩

/-- C8: `totalPages` is the ceiling of `totalCount / pageSize` and is `0`
when `totalCount = 0`, in which case every page is empty; a 125-record
listing has 3 pages, with 50, 25 and 0 items on pages 1, 3 and 4; and page
`k ≥ 1` is exactly the slice of the records from index `(k-1)*PER_PAGE` up
to `k*PER_PAGE`. -/
theorem c8_pagination_spec (α : Type) (xs : List α) (k : Nat) :
    pagination_pages PER_PAGE 0 = 0
    ∧ (0 < xs.length →
        xs.length ≤ pagination_pages PER_PAGE xs.length * PER_PAGE
        ∧ (pagination_pages PER_PAGE xs.length - 1) * PER_PAGE < xs.length)
    ∧ (xs.length = 0 → ∀ page : Int, paginate_files xs page = [])
    ∧ (xs.length = 125 →
        pagination_pages PER_PAGE xs.length = 3
        ∧ (paginate_files xs 1).length = 50
        ∧ (paginate_files xs 3).length = 25
        ∧ paginate_files xs 4 = [])
    ∧ (1 ≤ k →
        paginate_files xs (k : Int) =
          (xs.drop ((k - 1) * PER_PAGE)).take PER_PAGE) := by
  refine ⟨by decide, ?_, ?_, ?_, fun hk => paginate_files_natCast xs k hk⟩
  · intro h
    unfold pagination_pages PER_PAGE
    constructor
    · omega
    · omega
  · intro h page
    rw [List.length_eq_zero.mp h]
    simp [paginate_files, pySlice]
  · intro h
    refine ⟨by rw [h]; decide, ?_, ?_, ?_⟩
    · rw [show (1 : Int) = ((1 : Nat) : Int) from rfl,
        paginate_files_natCast xs 1 le_rfl]
      simp [h, PER_PAGE]
    · rw [show (3 : Int) = ((3 : Nat) : Int) from rfl,
        paginate_files_natCast xs 3 (by omega)]
      simp [h, PER_PAGE]
    · rw [show (4 : Int) = ((4 : Nat) : Int) from rfl,
        paginate_files_natCast xs 4 (by omega)]
      rw [List.drop_eq_nil_of_le (by rw [h]; norm_num [PER_PAGE]),
        List.take_nil]

/-- C8 witness: the 125-record instance, plus the general slice at page 2. -/
theorem c8_pagination_spec_witness :
    pagination_pages PER_PAGE (List.range 125).length = 3
    ∧ (paginate_files (List.range 125) 1).length = 50
    ∧ (paginate_files (List.range 125) 3).length = 25
    ∧ paginate_files (List.range 125) 4 = []
    ∧ paginate_files (List.range 125) ((2 : Nat) : Int) =
        ((List.range 125).drop ((2 - 1) * PER_PAGE)).take PER_PAGE := by
  have h := (c8_pagination_spec Nat (List.range 125) 2).2.2.2.1 (by simp)
  exact ⟨h.1, h.2.1, h.2.2.1, h.2.2.2,
    (c8_pagination_spec Nat (List.range 125) 2).2.2.2.2 (by omega)⟩

/-- C9 counterexample: the claim says a non-empty selection returns a
downloadable archive named `archive.zip`.  A non-empty selection containing
a confined path that does not exist makes `zipfile.ZipFile.write` raise, and
the request errors out instead of returning an archive. -/
theorem c9_missing_item_counterexample :
    ((["/nope"] : List String) ≠ [])
    ∧ zip_files BASE_DIR fsEmpty ["/nope"] =
        ZipResponse.serverError "FileNotFoundError" := by
  refine ⟨by decide, by decide⟩

/-- C9 (amended): an empty selection returns the `400 No items selected`
caller error and no archive is produced; a non-empty selection returns a
downloadable archive named `archive.zip` provided every confined selected
item that is not a directory exists as a regular file (a confined missing
item instead raises an unhandled error). -/
theorem c9_zip_endpoint (base : String) (fs : FS) (items : List String) :
    zip_files base fs [] = ZipResponse.noItems
    ∧ (items ≠ [] →
        (∀ item ∈ items, confineCheck base item = true →
          fs.isdir (parsePath item) = false →
          fs.isfile (parsePath item) = true) →
        ∃ es, zip_files base fs items = ZipResponse.archive "archive.zip" es) := by
  constructor
  · rfl
  · intro hne h
    obtain ⟨es, hes⟩ := zip_entries_ok base fs items h
    refine ⟨es, ?_⟩
    unfold zip_files
    rw [if_neg (by simp [hne]), hes]

/-- C9 witness: the empty selection and a one-file selection on the
`/confined` host. -/
theorem c9_zip_endpoint_witness :
    zip_files "/" fsArch [] = ZipResponse.noItems
    ∧ ∃ es, zip_files "/" fsArch ["/confined/f.txt"] =
        ZipResponse.archive "archive.zip" es :=
  ⟨(c9_zip_endpoint "/" fsArch []).1,
    (c9_zip_endpoint "/" fsArch ["/confined/f.txt"]).2 (by decide)
      (by decide)⟩

/-- C10: under the shipped `BASE_DIR = "/"`, the canonical form of every
request is absolute and so passes the `startswith` check: browsing never
substitutes the fallback root, and every existing regular file anywhere on
the host is deleted on request and written into a requested archive — the
rejection branches are unreachable. -/
theorem c10_root_confinement_vacuous (fs : FS) (req : String) :
    confineCheck BASE_DIR req = true
    ∧ explorer_safe_path BASE_DIR req = render (parsePath req)
    ∧ (fs.isfile (parsePath req) = true →
        delete_files BASE_DIR fs [req] =
          ⟨[DeleteOutcome.deleted], 1, 0, fs.remove (parsePath req)⟩
        ∧ zip_item BASE_DIR fs req =
            Except.ok [(parsePath req, basenameC (parsePath req))]) := by
  have hc := pyStartswith_root (parsePath req)
  refine ⟨hc, ?_, ?_⟩
  · simp [explorer_safe_path, hc]
  · intro hfile
    constructor
    · simp [delete_files, hc, hfile]
    · have hdir : fs.isdir (parsePath req) = false := by
        rw [FS.isfile, decide_eq_true_eq] at hfile
        simp [FS.isdir, hfile]
      simp [zip_item, hc, hdir, hfile]

/-- C10 witness: with root `/`, the request `/etc/passwd` is accepted
everywhere — listed without fallback, deleted, and archived. -/
theorem c10_root_confinement_vacuous_witness :
    confineCheck BASE_DIR "/etc/passwd" = true
    ∧ explorer_safe_path BASE_DIR "/etc/shadow" = render (parsePath "/etc/shadow")
    ∧ delete_files BASE_DIR fsEtc ["/etc/passwd"] =
        ⟨[DeleteOutcome.deleted], 1, 0, fsEtc.remove ["etc", "passwd"]⟩ :=
  ⟨(c10_root_confinement_vacuous fsEtc "/etc/passwd").1,
    (c10_root_confinement_vacuous fsEtc "/etc/shadow").2.1,
    ((c10_root_confinement_vacuous fsEtc "/etc/passwd").2.2 (by decide)).1⟩

end LinuxCommander
